import Mathlib

/-!
Verification development for the student grading system in `main.py`.

The program is a single-file Python application: an SQLite store with four
tables (students, subjects, marks, attendance), CRUD helpers over it, and a
pure grading function. We embed the store as explicit Lean state (lists of
rows plus the AUTOINCREMENT counters) and each database helper as a pure
state-passing function. Python floats are modelled by exact rationals `ℚ`;
`round(x, 2)` is modelled by rounding `x * 100` half-to-even (CPython's
documented rounding mode) and dividing back. The SQLite `INTEGER` column
`present` is modelled by `ℤ`, primary keys by `ℕ`.
-/

/-- Round-half-to-even of a rational to an integer, the tie-breaking rule of
Python's builtin `round`. -/
def round_half_even (q : ℚ) : ℤ :=
  if Int.fract q < 1/2 then ⌊q⌋
  else if 1/2 < Int.fract q then ⌊q⌋ + 1
  else if ⌊q⌋ % 2 = 0 then ⌊q⌋ else ⌊q⌋ + 1

/-- Model of Python `round(q, 2)`: round to two decimal places. -/
def round2 (q : ℚ) : ℚ := (round_half_even (q * 100) : ℚ) / 100

/-- Model of the `try: total += float(m) except: total += 0` coercion inside
`calculate_total_percentage_gpa_grade` (main.py lines 234-238): a raw mark
value is either parseable to a number (`some q`) or unparseable (`none`),
and an unparseable value contributes `0`. -/
def mark_addend : Option ℚ → ℚ
  | some q => q
  | none => 0

/-- Embedding of `calculate_total_percentage_gpa_grade` (main.py lines
227-253). Input rows are `(subject name, raw value)` pairs; output is
`(total, max_total, percentage, gpa, grade)`. -/
def calculate_total_percentage_gpa_grade (marks_list : List (String × Option ℚ)) :
    ℚ × ℚ × ℚ × ℚ × String :=
  if marks_list = [] then (0, 0, 0, 0, "N/A")
  else
    let total : ℚ := (marks_list.map (fun x => mark_addend x.2)).sum
    let max_total : ℚ := 100 * marks_list.length
    let percentage : ℚ := if max_total > 0 then round2 (total / max_total * 100) else 0
    if percentage ≥ 90 then (total, max_total, percentage, 4.0, "A+")
    else if percentage ≥ 80 then (total, max_total, percentage, 3.7, "A")
    else if percentage ≥ 70 then (total, max_total, percentage, 3.0, "B")
    else if percentage ≥ 60 then (total, max_total, percentage, 2.0, "C")
    else if percentage ≥ 50 then (total, max_total, percentage, 1.0, "D")
    else (total, max_total, percentage, 0.0, "F")


/-- Row of the `students` table (main.py lines 57-63): SQLite rowid `id`,
external code `student_id`, display `name` and class label `klass`. -/
structure StudentRow where
  id : ℕ
  student_id : String
  name : String
  klass : String
deriving DecidableEq

/-- Row of the `subjects` table (main.py lines 65-69). -/
structure SubjectRow where
  id : ℕ
  name : String
deriving DecidableEq

/-- Row of the `marks` table (main.py lines 71-79). -/
structure MarkRow where
  id : ℕ
  student_db_id : ℕ
  subject_db_id : ℕ
  marks : ℚ
deriving DecidableEq

/-- Row of the `attendance` table (main.py lines 81-88). The `present`
column is SQLite `INTEGER`, modelled by `ℤ`. -/
structure AttendanceRow where
  id : ℕ
  student_db_id : ℕ
  date : String
  present : ℤ
deriving DecidableEq

/-- The persistent store: the four tables in insertion order, plus the
AUTOINCREMENT counters that supply fresh primary keys for the tables the
program inserts into by id-generation (`marks`, `attendance`). -/
structure DB where
  students : List StudentRow
  subjects : List SubjectRow
  marks : List MarkRow
  attendance : List AttendanceRow
  next_mark_id : ℕ
  next_attendance_id : ℕ
deriving DecidableEq

/-- The freshly initialised store of `init_db`: four empty tables. -/
def emptyDB : DB :=
  { students := [], subjects := [], marks := [], attendance := [],
    next_mark_id := 1, next_attendance_id := 1 }

/-- Errors surfaced by the store, per the spec's taxonomy: SQLite raises
`IntegrityError` on a UNIQUE violation (modelled `duplicateKey`); the spec
additionally names `notFound`. -/
inductive DBError where
  | duplicateKey
  | notFound
  | validation
deriving DecidableEq

/-- Embedding of `update_student_in_db` (main.py lines 107-114): a single
`UPDATE students SET student_id=?, name=?, klass=? WHERE id=?`. SQLite
updates every row matching the WHERE clause (zero rows is not an error) and
raises `IntegrityError` only when an updated row's new `student_id` collides
with another row's value. The result pairs the resulting store with the
error, if any; on error the store is unchanged (the statement fails before
any write). -/
def update_student_in_db (s : DB) (db_id : ℕ) (student_id name klass : String) :
    DB × Option DBError :=
  if s.students.any (fun st => decide (st.id = db_id)) then
    if s.students.any (fun st => decide (st.id ≠ db_id ∧ st.student_id = student_id)) then
      (s, some DBError.duplicateKey)
    else
      ({ s with students := s.students.map (fun st =>
          if st.id = db_id then { st with student_id := student_id, name := name, klass := klass }
          else st) }, none)
  else (s, none)

/-- Embedding of `delete_student_from_db` (main.py lines 116-123): deletes
the student row and every mark and attendance row referencing the id. -/
def delete_student_from_db (s : DB) (db_id : ℕ) : DB :=
  { s with
    students := s.students.filter (fun st => decide (st.id ≠ db_id)),
    marks := s.marks.filter (fun m => decide (m.student_db_id ≠ db_id)),
    attendance := s.attendance.filter (fun a => decide (a.student_db_id ≠ db_id)) }

/-- Effect of `UPDATE marks SET marks=? WHERE id=?` on one row: rows whose
id matches get the new value, others are untouched. -/
def upd_row (rid : ℕ) (v : ℚ) (m : MarkRow) : MarkRow :=
  if m.id = rid then { m with marks := v } else m

/-- The WHERE clause `student_db_id=? AND subject_db_id=?` of the `marks`
queries. -/
def pair_pred (st sb : ℕ) (m : MarkRow) : Bool :=
  decide (m.student_db_id = st ∧ m.subject_db_id = sb)

/-- Embedding of `set_mark_in_db` (main.py lines 159-173): look up the first
`marks` row for the (student, subject) pair (`fetchone`); if found, `UPDATE
marks SET marks=? WHERE id=?`; otherwise insert a fresh row. -/
def set_mark_in_db (s : DB) (student_db_id subject_db_id : ℕ) (marks : ℚ) : DB :=
  match s.marks.find? (pair_pred student_db_id subject_db_id) with
  | some row => { s with marks := s.marks.map (upd_row row.id marks) }
  | none =>
      { s with
        marks := s.marks ++ [⟨s.next_mark_id, student_db_id, subject_db_id, marks⟩],
        next_mark_id := s.next_mark_id + 1 }

/-- Embedding of the rename inside `StudentGradingApp.edit_subject`
(main.py lines 522-530): `UPDATE subjects SET name=? WHERE id=?`; on
`sqlite3.IntegrityError` (the new name collides with a different row's
UNIQUE `name`) the handler reports the error and the store is unchanged. -/
def edit_subject (s : DB) (subj_id : ℕ) (new_name : String) : DB × Option DBError :=
  if s.subjects.any (fun r => decide (r.id = subj_id)) then
    if s.subjects.any (fun r => decide (r.id ≠ subj_id ∧ r.name = new_name)) then
      (s, some DBError.duplicateKey)
    else
      ({ s with subjects := s.subjects.map (fun r =>
          if r.id = subj_id then { r with name := new_name } else r) }, none)
  else (s, none)

/-- Embedding of `add_attendance_to_db` (main.py lines 198-204): insert one
attendance row, with the `present` flag coerced by `1 if present else 0`. -/
def add_attendance_to_db (s : DB) (student_db_id : ℕ) (date_str : String) (present : Bool) :
    DB :=
  { s with
    attendance := s.attendance ++
      [⟨s.next_attendance_id, student_db_id, date_str, if present then 1 else 0⟩],
    next_attendance_id := s.next_attendance_id + 1 }

/-- Embedding of `get_attendance_percent_from_db` (main.py lines 207-220):
`COUNT(*)` and `SUM(present)` over the student's attendance rows, returning
`0.0` when there are no rows and `round(present / total * 100, 2)`
otherwise. -/
def get_attendance_percent_from_db (s : DB) (student_db_id : ℕ) : ℚ :=
  let rows := s.attendance.filter (fun a => decide (a.student_db_id = student_db_id))
  if rows.length = 0 then 0
  else round2 (((rows.map (fun a => a.present)).sum : ℚ) / (rows.length : ℚ) * 100)

/-- The `total` accumulated by the loop of
`calculate_total_percentage_gpa_grade` (main.py lines 231-238). -/
def marks_total (l : List (String × Option ℚ)) : ℚ :=
  (l.map (fun x => mark_addend x.2)).sum

/-- The `percentage` computed at main.py line 240. -/
def marks_percentage (l : List (String × Option ℚ)) : ℚ :=
  if (100 * (l.length : ℚ)) > 0 then round2 (marks_total l / (100 * (l.length : ℚ)) * 100)
  else 0

/-- The GPA/grade if-chain of main.py lines 242-253 as a function of the
percentage. -/
def gpa_grade_of (p : ℚ) : ℚ × String :=
  if p ≥ 90 then (4.0, "A+")
  else if p ≥ 80 then (3.7, "A")
  else if p ≥ 70 then (3.0, "B")
  else if p ≥ 60 then (2.0, "C")
  else if p ≥ 50 then (1.0, "D")
  else (0.0, "F")

/-- The spec's fixed threshold table of §4.3, rows highest-first:
`(threshold, gpa, letter grade)`. -/
def spec_grade_table : List (ℚ × ℚ × String) :=
  [(90, 4.0, "A+"), (80, 3.7, "A"), (70, 3.0, "B"), (60, 2.0, "C"), (50, 1.0, "D")]

/-- First-match scan of a threshold table: the first row whose threshold the
percentage reaches wins; no row means the else-row `(0.0, "F")`. -/
def table_first_match : List (ℚ × ℚ × String) → ℚ → ℚ × String
  | [], _ => (0.0, "F")
  | r :: rest, p => if r.1 ≤ p then r.2 else table_first_match rest p

/-- Lookup in the spec's table, evaluated highest-first with the first
matching row winning. -/
def spec_grade_lookup (p : ℚ) : ℚ × String :=
  table_first_match spec_grade_table p

/-- The six disjoint percentage bands induced by the threshold table, with
their letter grades. -/
def spec_band_table : List ((ℚ → Bool) × String) :=
  [ (fun p => decide (90 ≤ p), "A+"),
    (fun p => decide (80 ≤ p ∧ p < 90), "A"),
    (fun p => decide (70 ≤ p ∧ p < 80), "B"),
    (fun p => decide (60 ≤ p ∧ p < 70), "C"),
    (fun p => decide (50 ≤ p ∧ p < 60), "D"),
    (fun p => decide (p < 50), "F") ]

/-- The letter grades of all band-table rows matched by a percentage. -/
def band_grades (p : ℚ) : List String :=
  (spec_band_table.filter (fun r => r.1 p)).map (fun r => r.2)

/-- The `present` column values of a student's attendance rows, in table
order: what `COUNT(*)` and `SUM(present)` of
`get_attendance_percent_from_db` run over. -/
def presents_of (s : DB) (st : ℕ) : List ℤ :=
  (s.attendance.filter (fun a => decide (a.student_db_id = st))).map (fun a => a.present)

/-- The store obtained by recording a sequence of present/absent flags for
one student through `add_attendance_to_db`, starting from the fresh store. -/
def attendance_log (st : ℕ) (d : String) (records : List Bool) : DB :=
  records.foldl (fun s b => add_attendance_to_db s st d b) emptyDB

/-- The stored mark of a (student, subject) pair: the first `marks` row
matching the WHERE clause, as `fetchone` of the `SELECT` in
`set_mark_in_db` reads it. -/
def get_mark (s : DB) (st sb : ℕ) : Option ℚ :=
  (s.marks.find? (pair_pred st sb)).map MarkRow.marks

/-- Invariant of the `marks` table maintained by the program: primary keys
are distinct and below the AUTOINCREMENT counter, and each (student,
subject) pair has at most one row. -/
def MarksInv (s : DB) : Prop :=
  (s.marks.map MarkRow.id).Nodup ∧
  (∀ m ∈ s.marks, m.id < s.next_mark_id) ∧
  ∀ st sb, s.marks.countP (pair_pred st sb) ≤ 1

/-- Folding a sequence of set-mark operations `(student, subject, value)`
over the store. -/
def apply_set_marks (s : DB) (ops : List (ℕ × ℕ × ℚ)) : DB :=
  ops.foldl (fun s o => set_mark_in_db s o.1 o.2.1 o.2.2) s

/-- A left fold over set-mark operations recording the last value set for
one pair, starting from a given accumulator. -/
def last_set_from (acc : Option ℚ) (ops : List (ℕ × ℕ × ℚ)) (st sb : ℕ) : Option ℚ :=
  ops.foldl (fun a o => if o.1 = st ∧ o.2.1 = sb then some o.2.2 else a) acc

/-- The most recently set value for a pair in a sequence of set-mark
operations, if any. -/
def last_set (ops : List (ℕ × ℕ × ℚ)) (st sb : ℕ) : Option ℚ :=
  last_set_from none ops st sb

/-- A store with two subjects, "Math" (id 1) and "Science" (id 2). -/
def twoSubjectsDB : DB :=
  { emptyDB with subjects := [⟨1, "Math"⟩, ⟨2, "Science"⟩] }

lemma calculate_eq_parts (l : List (String × Option ℚ)) (h : l ≠ []) :
    calculate_total_percentage_gpa_grade l =
      (marks_total l, 100 * (l.length : ℚ), marks_percentage l,
       (gpa_grade_of (marks_percentage l)).1, (gpa_grade_of (marks_percentage l)).2) := by
  have e1 : (l.map (fun x => mark_addend x.2)).sum = marks_total l := rfl
  unfold calculate_total_percentage_gpa_grade
  rw [if_neg h]
  dsimp only
  rw [e1]
  have e2 : (if (100 : ℚ) * (l.length : ℚ) > 0 then
      round2 (marks_total l / ((100 : ℚ) * (l.length : ℚ)) * 100) else (0 : ℚ)) =
      marks_percentage l := rfl
  rw [e2]
  unfold gpa_grade_of
  split_ifs <;> rfl

lemma marks_total_cons (a : String × Option ℚ) (l : List (String × Option ℚ)) :
    marks_total (a :: l) = mark_addend a.2 + marks_total l := by
  simp [marks_total]

lemma marks_total_bounds (l : List (String × Option ℚ))
    (h : ∀ x ∈ l, ∃ q, x.2 = some q ∧ 0 ≤ q ∧ q ≤ 100) :
    0 ≤ marks_total l ∧ marks_total l ≤ 100 * (l.length : ℚ) := by
  induction l with
  | nil => simp [marks_total]
  | cons a l ih =>
    obtain ⟨q, hq, h0, h100⟩ := h a (List.mem_cons_self a l)
    obtain ⟨ih0, ih1⟩ := ih (fun x hx => h x (List.mem_cons_of_mem _ hx))
    rw [marks_total_cons, hq]
    constructor
    · simpa [mark_addend] using add_nonneg h0 ih0
    · simp only [mark_addend, List.length_cons]
      push_cast
      linarith

lemma floor_le_round_half_even (q : ℚ) : ⌊q⌋ ≤ round_half_even q := by
  unfold round_half_even
  split_ifs <;> omega

lemma round_half_even_le_ceil (q : ℚ) : round_half_even q ≤ ⌈q⌉ := by
  have hadd : ∀ h : 0 < Int.fract q, ⌊q⌋ + 1 ≤ ⌈q⌉ := by
    intro hf
    have h1 : (⌊q⌋ : ℚ) < q := by
      have := Int.floor_add_fract q
      linarith
    have h2 : q ≤ (⌈q⌉ : ℚ) := Int.le_ceil q
    have : (⌊q⌋ : ℚ) < (⌈q⌉ : ℚ) := lt_of_lt_of_le h1 h2
    exact_mod_cast Int.add_one_le_iff.mpr (by exact_mod_cast this)
  unfold round_half_even
  split_ifs with h1 h2 h3
  · exact Int.floor_le_ceil q
  · exact hadd (lt_trans (by norm_num) h2)
  · exact Int.floor_le_ceil q
  · exact hadd (lt_of_lt_of_le (by norm_num) (le_of_not_lt h1))

lemma round2_nonneg {q : ℚ} (h : 0 ≤ q) : 0 ≤ round2 q := by
  unfold round2
  have h0 : (0 : ℤ) ≤ ⌊q * 100⌋ := Int.floor_nonneg.mpr (by positivity)
  have h1 : (0 : ℤ) ≤ round_half_even (q * 100) :=
    le_trans h0 (floor_le_round_half_even _)
  have h2 : (0 : ℚ) ≤ (round_half_even (q * 100) : ℚ) := by exact_mod_cast h1
  positivity

lemma round2_le_100 {q : ℚ} (h : q ≤ 100) : round2 q ≤ 100 := by
  unfold round2
  have h1 : round_half_even (q * 100) ≤ ⌈q * 100⌉ := round_half_even_le_ceil _
  have h2 : ⌈q * 100⌉ ≤ 10000 := Int.ceil_le.mpr (by push_cast; linarith)
  have h3 : (round_half_even (q * 100) : ℚ) ≤ 10000 := by
    exact_mod_cast le_trans h1 h2
  linarith

lemma gpa_grade_of_eq_spec_lookup (p : ℚ) : gpa_grade_of p = spec_grade_lookup p := by
  simp only [gpa_grade_of, spec_grade_lookup, spec_grade_table, table_first_match, ge_iff_le]

lemma band_grades_eq (p : ℚ) : band_grades p = [(gpa_grade_of p).2] := by
  unfold band_grades spec_band_table gpa_grade_of
  rcases le_or_lt 90 p with h1 | h1
  · have n90 : ¬p < 90 := not_lt.mpr h1
    have n80 : ¬p < 80 := not_lt.mpr (le_trans (by norm_num) h1)
    have n70 : ¬p < 70 := not_lt.mpr (le_trans (by norm_num) h1)
    have n60 : ¬p < 60 := not_lt.mpr (le_trans (by norm_num) h1)
    have n50 : ¬p < 50 := not_lt.mpr (le_trans (by norm_num) h1)
    simp [List.filter, h1, n90, n80, n70, n60, n50, ge_iff_le]
  rcases le_or_lt 80 p with h2 | h2
  · have n80 : ¬p < 80 := not_lt.mpr h2
    have n70 : ¬p < 70 := not_lt.mpr (le_trans (by norm_num) h2)
    have n60 : ¬p < 60 := not_lt.mpr (le_trans (by norm_num) h2)
    have n50 : ¬p < 50 := not_lt.mpr (le_trans (by norm_num) h2)
    simp [List.filter, not_le.mpr h1, h1, h2, n80, n70, n60, n50, ge_iff_le]
  rcases le_or_lt 70 p with h3 | h3
  · have n70 : ¬p < 70 := not_lt.mpr h3
    have n60 : ¬p < 60 := not_lt.mpr (le_trans (by norm_num) h3)
    have n50 : ¬p < 50 := not_lt.mpr (le_trans (by norm_num) h3)
    simp [List.filter, not_le.mpr h1, not_le.mpr h2, h2, h3, n70, n60, n50, ge_iff_le]
  rcases le_or_lt 60 p with h4 | h4
  · have n60 : ¬p < 60 := not_lt.mpr h4
    have n50 : ¬p < 50 := not_lt.mpr (le_trans (by norm_num) h4)
    simp [List.filter, not_le.mpr h1, not_le.mpr h2, not_le.mpr h3, h3, h4, n60, n50, ge_iff_le]
  rcases le_or_lt 50 p with h5 | h5
  · have n50 : ¬p < 50 := not_lt.mpr h5
    simp [List.filter, not_le.mpr h1, not_le.mpr h2, not_le.mpr h3, not_le.mpr h4, h4, h5,
      n50, ge_iff_le]
  · simp [List.filter, not_le.mpr h1, not_le.mpr h2, not_le.mpr h3, not_le.mpr h4,
      not_le.mpr h5, h5, ge_iff_le]

lemma length_pos_cast {α : Type} (l : List α) (h : l ≠ []) :
    (0 : ℚ) < 100 * (l.length : ℚ) := by
  have h1 : 0 < l.length := List.length_pos.mpr h
  have h2 : (0 : ℚ) < (l.length : ℚ) := by exact_mod_cast h1
  linarith

lemma marks_percentage_eq (l : List (String × Option ℚ)) (h : l ≠ []) :
    marks_percentage l = round2 (marks_total l / (100 * (l.length : ℚ)) * 100) := by
  unfold marks_percentage
  rw [if_pos (length_pos_cast l h)]

/-- C1: for every non-empty marks sequence, `calculate_total_percentage_gpa_grade`
returns `max_total = 100 * count(marks)` and `percentage = round(total / max_total
* 100, 2)`; and on `[("Math", 90), ("Science", 80)]` it returns
`(170, 200, 85.0, 3.7, "A")`. -/
theorem C1_aggregate_maxTotal_and_percentage (marks : List (String × Option ℚ))
    (h : marks ≠ []) :
    (calculate_total_percentage_gpa_grade marks).2.1 = 100 * (marks.length : ℚ) ∧
    (calculate_total_percentage_gpa_grade marks).2.2.1 =
      round2 ((calculate_total_percentage_gpa_grade marks).1 /
        (calculate_total_percentage_gpa_grade marks).2.1 * 100) ∧
    calculate_total_percentage_gpa_grade [("Math", some 90), ("Science", some 80)] =
      (170, 200, 85, 3.7, "A") := by
  rw [calculate_eq_parts marks h]
  refine ⟨rfl, ?_, ?_⟩
  · exact marks_percentage_eq marks h
  · norm_num [calculate_total_percentage_gpa_grade, round2, round_half_even, Int.fract,
      mark_addend]
    simp

theorem C1_witness :
    (([("Math", some 90), ("Science", some 80)] : List (String × Option ℚ)) ≠ []) ∧
    ((calculate_total_percentage_gpa_grade [("Math", some 90), ("Science", some 80)]).2.1 =
      100 * (([("Math", some 90), ("Science", some 80)] :
        List (String × Option ℚ)).length : ℚ) ∧
    (calculate_total_percentage_gpa_grade [("Math", some 90), ("Science", some 80)]).2.2.1 =
      round2 ((calculate_total_percentage_gpa_grade
          [("Math", some 90), ("Science", some 80)]).1 /
        (calculate_total_percentage_gpa_grade [("Math", some 90), ("Science", some 80)]).2.1 *
          100) ∧
    calculate_total_percentage_gpa_grade [("Math", some 90), ("Science", some 80)] =
      (170, 200, 85, 3.7, "A")) :=
  ⟨by simp, C1_aggregate_maxTotal_and_percentage
    [("Math", some 90), ("Science", some 80)] (by simp)⟩

/-- C2: for every non-empty marks sequence whose values all parse to numbers
in `[0, 100]`, the percentage lies in `[0, 100]`, the GPA/letter-grade pair
equals the highest-first first-match lookup in the spec's threshold table,
and the letter grade matches exactly one band of the table. -/
theorem C2_percentage_bounds_and_grade_table (marks : List (String × Option ℚ))
    (hne : marks ≠ [])
    (hvals : ∀ x ∈ marks, ∃ q, x.2 = some q ∧ 0 ≤ q ∧ q ≤ 100) :
    0 ≤ (calculate_total_percentage_gpa_grade marks).2.2.1 ∧
    (calculate_total_percentage_gpa_grade marks).2.2.1 ≤ 100 ∧
    ((calculate_total_percentage_gpa_grade marks).2.2.2.1,
      (calculate_total_percentage_gpa_grade marks).2.2.2.2) =
      spec_grade_lookup ((calculate_total_percentage_gpa_grade marks).2.2.1) ∧
    band_grades ((calculate_total_percentage_gpa_grade marks).2.2.1) =
      [(calculate_total_percentage_gpa_grade marks).2.2.2.2] := by
  rw [calculate_eq_parts marks hne]
  obtain ⟨ht0, ht1⟩ := marks_total_bounds marks hvals
  have hlen := length_pos_cast marks hne
  have hpe := marks_percentage_eq marks hne
  have harg0 : 0 ≤ marks_total marks / (100 * (marks.length : ℚ)) * 100 := by positivity
  have harg1 : marks_total marks / (100 * (marks.length : ℚ)) * 100 ≤ 100 := by
    rw [div_mul_eq_mul_div, div_le_iff₀ hlen]
    linarith
  refine ⟨?_, ?_, ?_, ?_⟩
  · dsimp only
    rw [hpe]
    exact round2_nonneg harg0
  · dsimp only
    rw [hpe]
    exact round2_le_100 harg1
  · dsimp only
    rw [← gpa_grade_of_eq_spec_lookup]
  · dsimp only
    exact band_grades_eq _

theorem C2_witness :
    (([("Math", some 90)] : List (String × Option ℚ)) ≠ []) ∧
    (∀ x ∈ ([("Math", some 90)] : List (String × Option ℚ)),
      ∃ q, x.2 = some q ∧ 0 ≤ q ∧ q ≤ 100) ∧
    (0 ≤ (calculate_total_percentage_gpa_grade [("Math", some 90)]).2.2.1 ∧
    (calculate_total_percentage_gpa_grade [("Math", some 90)]).2.2.1 ≤ 100 ∧
    ((calculate_total_percentage_gpa_grade [("Math", some 90)]).2.2.2.1,
      (calculate_total_percentage_gpa_grade [("Math", some 90)]).2.2.2.2) =
      spec_grade_lookup ((calculate_total_percentage_gpa_grade [("Math", some 90)]).2.2.1) ∧
    band_grades ((calculate_total_percentage_gpa_grade [("Math", some 90)]).2.2.1) =
      [(calculate_total_percentage_gpa_grade [("Math", some 90)]).2.2.2.2]) :=
  ⟨by simp, by norm_num, C2_percentage_bounds_and_grade_table [("Math", some 90)]
    (by simp) (by norm_num)⟩

/-- C3: `calculate_total_percentage_gpa_grade` on the empty marks list
returns exactly `(0, 0, 0, 0, "N/A")`. -/
theorem C3_aggregate_empty :
    calculate_total_percentage_gpa_grade [] = (0, 0, 0, 0, "N/A") := by
  norm_num [calculate_total_percentage_gpa_grade]

/-- C4: any unparseable mark value contributes `0` to the total (no error is
raised), while the count of marks — and hence `max_total` — still includes
it; and `calculate_total_percentage_gpa_grade [("Math", unparseable)]`
returns `(0, 100, 0.0, 0.0, "F")`. -/
theorem C4_unparseable_coerces_to_zero (marks : List (String × Option ℚ))
    (h : marks ≠ []) :
    (calculate_total_percentage_gpa_grade marks).1 =
      (marks.map (fun x => mark_addend x.2)).sum ∧
    mark_addend none = 0 ∧
    (calculate_total_percentage_gpa_grade marks).2.1 = 100 * (marks.length : ℚ) ∧
    calculate_total_percentage_gpa_grade [("Math", none)] = (0, 100, 0, 0, "F") := by
  rw [calculate_eq_parts marks h]
  refine ⟨rfl, rfl, rfl, ?_⟩
  norm_num [calculate_total_percentage_gpa_grade, round2, round_half_even, Int.fract,
    mark_addend]

theorem C4_witness :
    (([("Math", none)] : List (String × Option ℚ)) ≠ []) ∧
    ((calculate_total_percentage_gpa_grade [("Math", none)]).1 =
      (([("Math", none)] : List (String × Option ℚ)).map (fun x => mark_addend x.2)).sum ∧
    mark_addend none = 0 ∧
    (calculate_total_percentage_gpa_grade [("Math", none)]).2.1 =
      100 * (([("Math", none)] : List (String × Option ℚ)).length : ℚ) ∧
    calculate_total_percentage_gpa_grade [("Math", none)] = (0, 100, 0, 0, "F")) :=
  ⟨by simp, C4_unparseable_coerces_to_zero [("Math", none)] (by simp)⟩

lemma get_attendance_eq (s : DB) (st : ℕ) :
    get_attendance_percent_from_db s st =
      if (presents_of s st).length = 0 then 0
      else round2 (((presents_of s st).sum : ℚ) / ((presents_of s st).length : ℚ) * 100) := by
  unfold get_attendance_percent_from_db presents_of
  simp [Function.comp_def]

lemma presents_of_add_same (s : DB) (st : ℕ) (d : String) (b : Bool) :
    presents_of (add_attendance_to_db s st d b) st =
      presents_of s st ++ [if b then (1 : ℤ) else 0] := by
  unfold presents_of add_attendance_to_db
  simp [List.filter_append]

lemma presents_of_foldl (st : ℕ) (d : String) (records : List Bool) :
    ∀ s : DB,
      presents_of (records.foldl (fun s b => add_attendance_to_db s st d b) s) st =
        presents_of s st ++ records.map (fun b => if b then (1 : ℤ) else 0) := by
  induction records with
  | nil => intro s; simp
  | cons b bs ih =>
    intro s
    rw [List.foldl_cons, ih, presents_of_add_same]
    simp

lemma sum_map_bool_encode (l : List Bool) :
    (l.map (fun b => if b then (1 : ℤ) else 0)).sum = (l.countP (fun b => b) : ℤ) := by
  induction l with
  | nil => simp
  | cons b bs ih =>
    cases b
    · simp [ih, List.countP_cons]
    · simp [ih, List.countP_cons]
      ring

lemma sum_bounds_of_zero_one (l : List ℤ) (h : ∀ x ∈ l, x = 0 ∨ x = 1) :
    0 ≤ l.sum ∧ l.sum ≤ (l.length : ℤ) := by
  induction l with
  | nil => simp
  | cons a l ih =>
    obtain ⟨ih0, ih1⟩ := ih (fun x hx => h x (List.mem_cons_of_mem _ hx))
    rcases h a (List.mem_cons_self a l) with ha | ha <;>
      · simp only [List.sum_cons, List.length_cons, ha]
        push_cast
        omega

/-- C5: over a store holding exactly the recorded present/absent sequence of
one student, `get_attendance_percent_from_db` returns `0.0` for the empty
sequence and `round(count(present=true) / count(total) * 100, 2)` otherwise;
on `[true, true, false, true]` it returns `75.0`. -/
theorem C5_attendance_percent (records : List Bool) :
    get_attendance_percent_from_db (attendance_log 1 "2026-01-01" records) 1 =
      (if records = [] then 0
       else round2 ((records.countP (fun b => b) : ℚ) / (records.length : ℚ) * 100)) ∧
    get_attendance_percent_from_db
      (attendance_log 1 "2026-01-01" [true, true, false, true]) 1 = 75 := by
  have main : ∀ rs : List Bool,
      get_attendance_percent_from_db (attendance_log 1 "2026-01-01" rs) 1 =
        (if rs = [] then 0
         else round2 ((rs.countP (fun b => b) : ℚ) / (rs.length : ℚ) * 100)) := by
    intro rs
    rw [get_attendance_eq]
    unfold attendance_log
    rw [presents_of_foldl]
    have he : presents_of emptyDB 1 = [] := by simp [presents_of, emptyDB]
    rw [he, List.nil_append, List.length_map, sum_map_bool_encode]
    by_cases hr : rs = []
    · simp [hr]
    · rw [if_neg (by simpa using hr), if_neg hr]
      push_cast
      rfl
  refine ⟨main records, ?_⟩
  rw [main [true, true, false, true], if_neg (by simp)]
  norm_num [List.countP, List.countP.go, round2, round_half_even, Int.fract]

/-- C10: writing an attendance row through `add_attendance_to_db` stores
`present` as exactly `1` or `0` (the `1 if present else 0` coercion), so a
store whose rows all carry `0`/`1` keeps that shape, and the attendance
percentage of every student lies in `[0, 100]`. -/
theorem C10_present_zero_one_and_percent_bounds (s : DB) (st : ℕ) (d : String)
    (b : Bool) (st' : ℕ)
    (h : ∀ a ∈ s.attendance, a.present = 0 ∨ a.present = 1) :
    (∀ a ∈ (add_attendance_to_db s st d b).attendance, a.present = 0 ∨ a.present = 1) ∧
    0 ≤ get_attendance_percent_from_db s st' ∧
    get_attendance_percent_from_db s st' ≤ 100 := by
  refine ⟨?_, ?_⟩
  · intro a ha
    unfold add_attendance_to_db at ha
    simp only [List.mem_append, List.mem_singleton] at ha
    rcases ha with ha | rfl
    · exact h a ha
    · cases b <;> simp
  · have hmem : ∀ x ∈ presents_of s st', x = 0 ∨ x = 1 := by
      intro x hx
      unfold presents_of at hx
      obtain ⟨a, ha, rfl⟩ := List.mem_map.mp hx
      exact h a (List.mem_of_mem_filter ha)
    obtain ⟨hs0, hs1⟩ := sum_bounds_of_zero_one _ hmem
    rw [get_attendance_eq]
    by_cases hlen : (presents_of s st').length = 0
    · rw [if_pos hlen]
      norm_num
    · rw [if_neg hlen]
      have hl : (0 : ℚ) < ((presents_of s st').length : ℚ) := by
        have : 0 < (presents_of s st').length := Nat.pos_of_ne_zero hlen
        exact_mod_cast this
      have hq0 : (0 : ℚ) ≤ ((presents_of s st').sum : ℚ) := by exact_mod_cast hs0
      have hq1 : ((presents_of s st').sum : ℚ) ≤ ((presents_of s st').length : ℚ) := by
        exact_mod_cast hs1
      have harg0 : 0 ≤ ((presents_of s st').sum : ℚ) /
          ((presents_of s st').length : ℚ) * 100 := by positivity
      have harg1 : ((presents_of s st').sum : ℚ) /
          ((presents_of s st').length : ℚ) * 100 ≤ 100 := by
        rw [div_mul_eq_mul_div, div_le_iff₀ hl]
        linarith
      exact ⟨round2_nonneg harg0, round2_le_100 harg1⟩

theorem C10_witness :
    (∀ a ∈ emptyDB.attendance, a.present = 0 ∨ a.present = 1) ∧
    ((∀ a ∈ (add_attendance_to_db emptyDB 1 "2026-01-01" true).attendance,
        a.present = 0 ∨ a.present = 1) ∧
      0 ≤ get_attendance_percent_from_db emptyDB 1 ∧
      get_attendance_percent_from_db emptyDB 1 ≤ 100) :=
  ⟨by simp [emptyDB], C10_present_zero_one_and_percent_bounds emptyDB 1 "2026-01-01" true 1
    (by simp [emptyDB])⟩

lemma upd_row_id (rid : ℕ) (v : ℚ) (m : MarkRow) : (upd_row rid v m).id = m.id := by
  unfold upd_row
  split_ifs <;> rfl

lemma pair_pred_upd (st sb rid : ℕ) (v : ℚ) (m : MarkRow) :
    pair_pred st sb (upd_row rid v m) = pair_pred st sb m := by
  unfold pair_pred upd_row
  split_ifs <;> rfl

lemma upd_row_of_ne (rid : ℕ) (v : ℚ) (m : MarkRow) (h : m.id ≠ rid) :
    upd_row rid v m = m := if_neg h

lemma set_mark_inv (s : DB) (st sb : ℕ) (v : ℚ) (h : MarksInv s) :
    MarksInv (set_mark_in_db s st sb v) := by
  obtain ⟨hnd, hlt, hcnt⟩ := h
  unfold set_mark_in_db
  cases hfind : s.marks.find? (pair_pred st sb) with
  | some row =>
    refine ⟨?_, ?_, ?_⟩
    · have e : (s.marks.map (upd_row row.id v)).map MarkRow.id = s.marks.map MarkRow.id := by
        rw [List.map_map]
        simp [Function.comp_def, upd_row_id]
      dsimp only
      rw [e]
      exact hnd
    · intro m hm
      obtain ⟨m0, hm0, rfl⟩ := List.mem_map.mp hm
      rw [upd_row_id]
      exact hlt m0 hm0
    · intro st' sb'
      dsimp only
      rw [List.countP_map]
      have e : ∀ m ∈ s.marks, (pair_pred st' sb' ∘ upd_row row.id v) m = true ↔
          pair_pred st' sb' m = true := fun m _ => by
        rw [Function.comp_apply, pair_pred_upd]
      rw [List.countP_congr e]
      exact hcnt st' sb'
  | none =>
    refine ⟨?_, ?_, ?_⟩
    · dsimp only
      rw [List.map_append, List.nodup_append]
      refine ⟨hnd, by simp, ?_⟩
      intro x hx hy
      simp only [List.map_cons, List.map_nil, List.mem_singleton] at hy
      subst hy
      obtain ⟨m, hm, he⟩ := List.mem_map.mp hx
      exact absurd he (Nat.ne_of_lt (hlt m hm))
    · intro m hm
      rcases List.mem_append.mp hm with hm | hm
      · exact lt_trans (hlt m hm) (Nat.lt_succ_self _)
      · rw [List.mem_singleton] at hm
        subst hm
        exact Nat.lt_succ_self _
    · intro st' sb'
      dsimp only
      rw [List.countP_append]
      by_cases hp : pair_pred st' sb' ⟨s.next_mark_id, st, sb, v⟩ = true
      · have hps : st = st' ∧ sb = sb' := by simpa [pair_pred] using hp
        obtain ⟨rfl, rfl⟩ := hps
        have h0 : s.marks.countP (pair_pred st sb) = 0 :=
          List.countP_eq_zero.mpr (by
            intro m hm
            simpa using List.find?_eq_none.mp hfind m hm)
        have h1 : List.countP (pair_pred st sb) [⟨s.next_mark_id, st, sb, v⟩] = 1 := by
          simp [List.countP_cons, pair_pred]
        omega
      · have h1 : List.countP (pair_pred st' sb') [⟨s.next_mark_id, st, sb, v⟩] = 0 := by
          simp only [List.countP_cons, List.countP_nil, hp]
          simp [Bool.not_eq_true] at hp
          simp [hp]
        have := hcnt st' sb'
        omega

lemma set_mark_get (s : DB) (st sb : ℕ) (v : ℚ) (st' sb' : ℕ) (h : MarksInv s) :
    get_mark (set_mark_in_db s st sb v) st' sb' =
      if st' = st ∧ sb' = sb then some v else get_mark s st' sb' := by
  obtain ⟨hnd, hlt, hcnt⟩ := h
  unfold set_mark_in_db
  cases hfind : s.marks.find? (pair_pred st sb) with
  | some row =>
    have hrow_mem : row ∈ s.marks := List.mem_of_find?_eq_some hfind
    have hrow_pair : row.student_db_id = st ∧ row.subject_db_id = sb := by
      simpa [pair_pred] using List.find?_some hfind
    unfold get_mark
    dsimp only
    have hfun : pair_pred st' sb' ∘ upd_row row.id v = pair_pred st' sb' :=
      funext fun m => pair_pred_upd st' sb' row.id v m
    rw [List.find?_map, hfun]
    by_cases hps : st' = st ∧ sb' = sb
    · obtain ⟨rfl, rfl⟩ := hps
      rw [if_pos ⟨rfl, rfl⟩, hfind]
      simp [upd_row]
    · rw [if_neg hps]
      cases hfind' : s.marks.find? (pair_pred st' sb') with
      | none => simp [get_mark, hfind']
      | some r1 =>
        have hr1_mem : r1 ∈ s.marks := List.mem_of_find?_eq_some hfind'
        have hr1_pair : r1.student_db_id = st' ∧ r1.subject_db_id = sb' := by
          simpa [pair_pred] using List.find?_some hfind'
        have hneq : r1.id ≠ row.id := by
          intro he
          have hr : r1 = row := List.inj_on_of_nodup_map hnd hr1_mem hrow_mem he
          rw [hr] at hr1_pair
          exact hps ⟨hr1_pair.1.symm.trans hrow_pair.1, hr1_pair.2.symm.trans hrow_pair.2⟩
        simp [upd_row_of_ne row.id v r1 hneq]
  | none =>
    unfold get_mark
    dsimp only
    rw [List.find?_append]
    by_cases hps : st' = st ∧ sb' = sb
    · obtain ⟨rfl, rfl⟩ := hps
      rw [if_pos ⟨rfl, rfl⟩, hfind]
      simp [pair_pred, List.find?]
    · rw [if_neg hps]
      have hnew : pair_pred st' sb' ⟨s.next_mark_id, st, sb, v⟩ = false := by
        simp only [pair_pred, decide_eq_false_iff_not]
        intro hc
        exact hps ⟨hc.1.symm, hc.2.symm⟩
      simp [List.find?, hnew, get_mark]

lemma last_set_from_eq (st sb : ℕ) (ops : List (ℕ × ℕ × ℚ)) :
    ∀ acc : Option ℚ,
      last_set_from acc ops st sb =
        (match last_set ops st sb with
         | some v => some v
         | none => acc) := by
  induction ops with
  | nil =>
    intro acc
    rfl
  | cons o ops ih =>
    intro acc
    show last_set_from (if o.1 = st ∧ o.2.1 = sb then some o.2.2 else acc) ops st sb = _
    rw [ih (if o.1 = st ∧ o.2.1 = sb then some o.2.2 else acc)]
    have hr : last_set (o :: ops) st sb =
        last_set_from (if o.1 = st ∧ o.2.1 = sb then some o.2.2 else none) ops st sb := rfl
    rw [hr, ih (if o.1 = st ∧ o.2.1 = sb then some o.2.2 else none)]
    cases last_set ops st sb with
    | some v => rfl
    | none => split_ifs <;> rfl

/-- C6: from a store satisfying the marks-table invariant, any sequence of
set-mark operations preserves it — in particular at most one stored mark
row per (student, subject) pair — and the stored mark of every pair
afterwards is the most recently set value for that pair, or its previous
value if the sequence never set that pair. -/
theorem C6_set_mark_overwrites (s : DB) (ops : List (ℕ × ℕ × ℚ)) (h : MarksInv s) :
    MarksInv (apply_set_marks s ops) ∧
    ∀ st sb, get_mark (apply_set_marks s ops) st sb =
      (match last_set ops st sb with
       | some v => some v
       | none => get_mark s st sb) := by
  induction ops generalizing s with
  | nil => exact ⟨h, fun st sb => rfl⟩
  | cons o ops ih =>
    have h1 : MarksInv (set_mark_in_db s o.1 o.2.1 o.2.2) := set_mark_inv s o.1 o.2.1 o.2.2 h
    obtain ⟨ihInv, ihGet⟩ := ih (set_mark_in_db s o.1 o.2.1 o.2.2) h1
    refine ⟨ihInv, ?_⟩
    intro st sb
    have hL : get_mark (apply_set_marks s (o :: ops)) st sb =
        (match last_set ops st sb with
         | some v => some v
         | none => get_mark (set_mark_in_db s o.1 o.2.1 o.2.2) st sb) := ihGet st sb
    rw [hL]
    have hstep := set_mark_get s o.1 o.2.1 o.2.2 st sb h
    have hr : last_set (o :: ops) st sb =
        (match last_set ops st sb with
         | some v => some v
         | none => if o.1 = st ∧ o.2.1 = sb then some o.2.2 else none) :=
      last_set_from_eq st sb ops (if o.1 = st ∧ o.2.1 = sb then some o.2.2 else none)
    rw [hstep, hr]
    cases last_set ops st sb with
    | some v => rfl
    | none =>
      by_cases hc : st = o.1 ∧ sb = o.2.1
      · rw [if_pos hc, if_pos ⟨hc.1.symm, hc.2.symm⟩]
      · rw [if_neg hc, if_neg (fun hc2 => hc ⟨hc2.1.symm, hc2.2.symm⟩)]

lemma emptyDB_marks_inv : MarksInv emptyDB :=
  ⟨by simp [emptyDB], by simp [emptyDB], fun st sb => by simp [emptyDB]⟩

theorem C6_witness :
    MarksInv emptyDB ∧
    (MarksInv (apply_set_marks emptyDB [(1, 2, 50), (1, 2, 70)]) ∧
     ∀ st sb, get_mark (apply_set_marks emptyDB [(1, 2, 50), (1, 2, 70)]) st sb =
       (match last_set [(1, 2, 50), (1, 2, 70)] st sb with
        | some v => some v
        | none => get_mark emptyDB st sb)) :=
  ⟨emptyDB_marks_inv,
   C6_set_mark_overwrites emptyDB [(1, 2, 50), (1, 2, 70)] emptyDB_marks_inv⟩

/-- C7: deleting a student removes the student row and every mark and
attendance row referencing the deleted id — afterwards no row with that
student reference remains in the store. -/
theorem C7_delete_student_cascades (s : DB) (db_id : ℕ) :
    (∀ st ∈ (delete_student_from_db s db_id).students, st.id ≠ db_id) ∧
    (∀ m ∈ (delete_student_from_db s db_id).marks, m.student_db_id ≠ db_id) ∧
    (∀ a ∈ (delete_student_from_db s db_id).attendance, a.student_db_id ≠ db_id) := by
  refine ⟨?_, ?_, ?_⟩ <;>
    · intro x hx
      unfold delete_student_from_db at hx
      simp only [List.mem_filter, decide_eq_true_eq] at hx
      exact hx.2

/-- C8: renaming a subject to a name already used by a different subject
fails with the duplicate-key error, and the store is returned unchanged. -/
theorem C8_rename_subject_duplicate (s : DB) (subj_id : ℕ) (new_name : String)
    (hex : ∃ r ∈ s.subjects, r.id = subj_id)
    (hcol : ∃ r ∈ s.subjects, r.id ≠ subj_id ∧ r.name = new_name) :
    edit_subject s subj_id new_name = (s, some DBError.duplicateKey) := by
  unfold edit_subject
  have h1 : s.subjects.any (fun r => decide (r.id = subj_id)) = true := by
    rw [List.any_eq_true]
    obtain ⟨r, hr, he⟩ := hex
    exact ⟨r, hr, by simp [he]⟩
  have h2 : s.subjects.any (fun r => decide (r.id ≠ subj_id ∧ r.name = new_name)) = true := by
    rw [List.any_eq_true]
    obtain ⟨r, hr, hne, hn⟩ := hcol
    exact ⟨r, hr, by simp [hne, hn]⟩
  rw [if_pos h1, if_pos h2]

theorem C8_witness :
    (∃ r ∈ twoSubjectsDB.subjects, r.id = 1) ∧
    (∃ r ∈ twoSubjectsDB.subjects, r.id ≠ 1 ∧ r.name = "Science") ∧
    edit_subject twoSubjectsDB 1 "Science" = (twoSubjectsDB, some DBError.duplicateKey) :=
  ⟨⟨⟨1, "Math"⟩, by simp [twoSubjectsDB, emptyDB], rfl⟩,
   ⟨⟨2, "Science"⟩, by simp [twoSubjectsDB, emptyDB], by simp, rfl⟩,
   C8_rename_subject_duplicate twoSubjectsDB 1 "Science"
     ⟨⟨1, "Math"⟩, by simp [twoSubjectsDB, emptyDB], rfl⟩
     ⟨⟨2, "Science"⟩, by simp [twoSubjectsDB, emptyDB], by simp, rfl⟩⟩

/-- C9 counterexample: on the fresh store, which contains no student with
id 5, `update_student_in_db` returns the unchanged store with no error —
it does not fail with `notFound`, contrary to the claim. -/
theorem C9_counterexample_update_missing_id :
    update_student_in_db emptyDB 5 "S1" "Alice" "10A" = (emptyDB, none) ∧
    (update_student_in_db emptyDB 5 "S1" "Alice" "10A").2 ≠ some DBError.notFound := by
  constructor
  · rfl
  · simp [update_student_in_db, emptyDB]

/-- C9 amended: updating a student id that does not exist in the store
silently succeeds — the `UPDATE ... WHERE id=?` matches zero rows — and
returns the store unchanged with no error of any kind. -/
theorem C9_update_missing_id_silent (s : DB) (db_id : ℕ) (sid name klass : String)
    (h : ∀ st ∈ s.students, st.id ≠ db_id) :
    update_student_in_db s db_id sid name klass = (s, none) := by
  unfold update_student_in_db
  have hcond : s.students.any (fun st => decide (st.id = db_id)) = false := by
    rw [List.any_eq_false]
    intro st hst
    simp [h st hst]
  rw [if_neg (by simp [hcond])]

theorem C9_witness :
    (∀ st ∈ emptyDB.students, st.id ≠ 5) ∧
    update_student_in_db emptyDB 5 "S1" "Alice" "10A" = (emptyDB, none) :=
  ⟨by simp [emptyDB],
   C9_update_missing_id_silent emptyDB 5 "S1" "Alice" "10A" (by simp [emptyDB])⟩
